import Mathlib

/-!
Verification development for the AITrader market-data aggregation pipeline.

Shallow embedding of the Go sources:
- `indicators/market.go` (open-interest / funding-rate metrics, change rates, OI cache helper)
- `indicators/short_term.go` and the long-term counterpart (timeframe pipelines)
- `binance/endpoints.go` (`CalculateOIChange`)
- `utils` OI cache manager (`Update` / `Get` / `IsExpired`)
- the scheduler fan-out loops (`processShortTermStrategy` / `processLongTermStrategy`)

Go `float64` arithmetic is idealized as exact rational arithmetic (`ℚ`); `math.Round`
(round half away from zero) is embedded explicitly.  Exchange fetches and the
ta-lib indicator-math library are external collaborators: fetch results are inputs
(`Option` = success/failure) and ta-lib is a record of uninterpreted functions.
String-to-float parsing by `strconv.ParseFloat` is absorbed into the numeric
fields (a parse with ignored error yields `0`; checked parses are `Option`).
-/

namespace AITrader

/-- Go `math.Round`: round to the nearest integer, half away from zero. -/
def goRound (q : ℚ) : ℤ :=
  if q < 0 then -⌊-q + 1/2⌋ else ⌊q + 1/2⌋

/-- `formatPrice` (indicators common helpers): round to 2 decimal places. -/
def formatPrice (value : ℚ) : ℚ := (goRound (value * 100) : ℚ) / 100

/-- `formatMACD`: round to 4 decimal places. -/
def formatMACD (value : ℚ) : ℚ := (goRound (value * 10000) : ℚ) / 10000

/-- `formatPercent`: round to 2 decimal places. -/
def formatPercent (value : ℚ) : ℚ := (goRound (value * 100) : ℚ) / 100

/-- `binance.Kline`, with the numeric content of its string fields
(`strconv.ParseFloat` with ignored error; a failed parse reads as 0). -/
structure Kline where
  Open : ℚ
  High : ℚ
  Low : ℚ
  Close : ℚ
  Volume : ℚ
  deriving DecidableEq

/-- `MACDData` (config/accounts.go). -/
structure MACDData where
  dif : ℚ
  dea : ℚ
  histogram : ℚ
  deriving DecidableEq

/-- `BBData` (config/accounts.go). -/
structure BBData where
  upper : ℚ
  middle : ℚ
  lower : ℚ
  deriving DecidableEq

/-- `StochRSIData` (config/accounts.go). -/
structure StochRSIData where
  k : ℚ
  d : ℚ
  deriving DecidableEq

/-- `TimeframeData` (config/accounts.go): per-timeframe indicator block.
Nil-able Go pointers become `Option`. -/
structure TimeframeData where
  closePrice : ℚ
  highPrice : ℚ
  lowPrice : ℚ
  openPrice : ℚ
  ema9 : ℚ
  ema21 : ℚ
  ema55 : ℚ
  macd : Option MACDData
  rsi : ℚ
  bb : Option BBData
  atr : ℚ
  volume : ℚ
  adx : Option ℚ
  vwap : Option ℚ
  stochRSI : Option StochRSIData
  deriving DecidableEq

/-- `MarketData` (config/accounts.go): symbol-level market metrics. The
`OIChange*` fields are nil-able pointers, absent unless explicitly set. -/
structure MarketData where
  oiCurrent : ℚ
  oiHistory : List ℚ
  oiChange5m : Option ℚ
  oiChange15m : Option ℚ
  oiChange25m : Option ℚ
  oiChange45m : Option ℚ
  oiChange75m : Option ℚ
  fundingRate : ℚ
  fundingAvg3 : ℚ
  deriving DecidableEq

/-- `OICache` (indicators/market.go; the `utils` package re-declares the
structurally identical type to avoid an import cycle, so one Lean type
models both). History is newest-first. -/
structure OICache where
  symbol : String
  history : List ℚ
  timestamps : List ℤ
  deriving DecidableEq

/-- `OIMetrics` (indicators/market.go). -/
structure OIMetrics where
  current : ℚ
  deriving DecidableEq

/-- `FundingMetrics` (indicators/market.go). -/
structure FundingMetrics where
  current : ℚ
  avg3 : ℚ
  deriving DecidableEq

/-- Results of the exchange fetches feeding `CalculateMarketData`, parsed.
`none` = the fetch (or the checked string parse) failed.  Funding-history
entries parse individually with skipped errors, hence `List (Option ℚ)`. -/
structure MarketEnv where
  openInterest : Option ℚ
  lastFundingRate : Option ℚ
  fundingRateHistory : Option (List (Option ℚ))
  deriving DecidableEq

/-- `CalculateOIMetrics` (indicators/market.go): USD-notional open interest,
`nil` when the fetch or the parse failed. -/
def CalculateOIMetrics (env : MarketEnv) (currentPrice : ℚ) : Option OIMetrics :=
  match env.openInterest with
  | none => none
  | some oiValue => some ⟨formatPrice (oiValue * currentPrice)⟩

/-- `CalculateFundingMetrics` (indicators/market.go): current funding rate and
3-sample average; a failed history fetch degrades to `Avg3 = 0`. -/
def CalculateFundingMetrics (env : MarketEnv) : Option FundingMetrics :=
  match env.lastFundingRate with
  | none => none
  | some currentRate =>
    match env.fundingRateHistory with
    | none => some ⟨formatPercent (currentRate * 100), 0⟩
    | some fundingRates =>
      let vals := fundingRates.filterMap id
      let avg3 : ℚ := if 0 < vals.length then vals.sum / (vals.length : ℚ) else 0
      some ⟨formatPercent (currentRate * 100), formatPercent (avg3 * 100)⟩

/-- `calculateOIChangeRate` (indicators/market.go): percentage change,
rounded to 2 decimals, `0` when the previous value is `0`. -/
def calculateOIChangeRate (current previous : ℚ) : ℚ :=
  if previous = 0 then 0 else formatPercent ((current - previous) / previous * 100)

/-- `CalculateOIChange` (binance/endpoints.go): raw percentage change,
`0` when the previous value is `0`. -/
def CalculateOIChange (current previous : ℚ) : ℚ :=
  if previous = 0 then 0 else (current - previous) / previous * 100

/-- Lines 62-80 of `CalculateMarketData`: attach the cache history and the
offset change rates to a `MarketData` value.  Offsets 0/2/4 are guarded by
history lengths 2/4/5; the 45m field is filled from the same index-4 element
as the 25m field. -/
def applyOIChanges (current : ℚ) (history : List ℚ) (md : MarketData) : MarketData :=
  if 0 < history.length then
    let md1 := { md with oiHistory := history }
    let md2 := if 2 ≤ history.length then
        { md1 with oiChange5m := some (calculateOIChangeRate current (history.getD 0 0)) }
      else md1
    let md3 := if 4 ≤ history.length then
        { md2 with oiChange15m := some (calculateOIChangeRate current (history.getD 2 0)) }
      else md2
    if 5 ≤ history.length then
      { md3 with oiChange25m := some (calculateOIChangeRate current (history.getD 4 0)),
                 oiChange45m := some (calculateOIChangeRate current (history.getD 4 0)) }
    else md3
  else md

/-- `CalculateMarketData` (indicators/market.go): OI + funding metrics plus
cache-derived change rates; `nil` when either fetch group failed. -/
def CalculateMarketData (env : MarketEnv) (_symbol : String) (currentPrice : ℚ)
    (oiCache : Option OICache) : Option MarketData :=
  match CalculateOIMetrics env currentPrice with
  | none => none
  | some oiMetrics =>
    match CalculateFundingMetrics env with
    | none => none
    | some fundingMetrics =>
      let base : MarketData :=
        { oiCurrent := formatPrice (oiMetrics.current / 1000000)
          oiHistory := []
          oiChange5m := none
          oiChange15m := none
          oiChange25m := none
          oiChange45m := none
          oiChange75m := none
          fundingRate := fundingMetrics.current
          fundingAvg3 := fundingMetrics.avg3 }
      some (match oiCache with
        | some cache => applyOIChanges (oiMetrics.current / 1000000) cache.history base
        | none => base)

/-- `UpdateOICache` (indicators/market.go): prepend the new sample and
truncate to `maxSize`; a nil cache is created empty first. -/
def UpdateOICache (cache : Option OICache) (newOI : ℚ) (timestamp : ℤ)
    (maxSize : ℤ) : OICache :=
  let c := cache.getD ⟨"", [], []⟩
  let history := newOI :: c.history
  let timestamps := timestamp :: c.timestamps
  if maxSize < (history.length : ℤ) then
    { c with history := history.take maxSize.toNat,
             timestamps := timestamps.take maxSize.toNat }
  else
    { c with history := history, timestamps := timestamps }

/-- The external `go-talib` indicator-math collaborator (out of repository
scope): each field models one talib call, collapsed to the latest element of
the series talib returns (the wrappers only ever read that element). -/
structure TALib where
  ema : List ℚ → ℕ → ℚ
  macd : List ℚ → ℕ → ℕ → ℕ → ℚ × ℚ × ℚ
  rsi : List ℚ → ℕ → ℚ
  bbands : List ℚ → ℕ → ℚ → ℚ × ℚ × ℚ
  atr : List ℚ → List ℚ → List ℚ → ℕ → ℚ
  adx : List ℚ → List ℚ → List ℚ → ℕ → ℚ
  stochRsi : List ℚ → ℕ → ℕ → ℕ → ℚ × ℚ

/-- `extractCloses` (indicators common helpers). -/
def extractCloses (klines : List Kline) : List ℚ := klines.map Kline.Close

/-- High component of `extractHLC`. -/
def extractHighs (klines : List Kline) : List ℚ := klines.map Kline.High

/-- Low component of `extractHLC`. -/
def extractLows (klines : List Kline) : List ℚ := klines.map Kline.Low

/-- `CalculateEMA`: latest EMA value, `0` when the series is shorter than
the period. -/
def CalculateEMA (lib : TALib) (klines : List Kline) (period : ℕ) : ℚ :=
  if klines.length < period then 0
  else formatPrice (lib.ema (extractCloses klines) period)

/-- `CalculateMACD`: MACD(12,26,9) components, `nil` under 26 candles. -/
def CalculateMACD (lib : TALib) (klines : List Kline) : Option MACDData :=
  if klines.length < 26 then none
  else
    let r := lib.macd (extractCloses klines) 12 26 9
    some ⟨formatMACD r.1, formatMACD r.2.1, formatMACD r.2.2⟩

/-- `CalculateRSI`: latest RSI value, `0` under `period + 1` candles. -/
def CalculateRSI (lib : TALib) (klines : List Kline) (period : ℕ) : ℚ :=
  if klines.length < period + 1 then 0
  else formatPercent (lib.rsi (extractCloses klines) period)

/-- `CalculateBollingerBands`: latest bands, `nil` under `period` candles. -/
def CalculateBollingerBands (lib : TALib) (klines : List Kline) (period : ℕ)
    (stdDev : ℚ) : Option BBData :=
  if klines.length < period then none
  else
    let r := lib.bbands (extractCloses klines) period stdDev
    some ⟨formatPrice r.1, formatPrice r.2.1, formatPrice r.2.2⟩

/-- `CalculateATR`: latest ATR value, `0` under `period + 1` candles. -/
def CalculateATR (lib : TALib) (klines : List Kline) (period : ℕ) : ℚ :=
  if klines.length < period + 1 then 0
  else formatPrice (lib.atr (extractHighs klines) (extractLows klines)
    (extractCloses klines) period)

/-- `CalculateADX`: latest ADX value, `0` under `2 * period` candles. -/
def CalculateADX (lib : TALib) (klines : List Kline) (period : ℕ) : ℚ :=
  if klines.length < period * 2 then 0
  else formatPercent (lib.adx (extractHighs klines) (extractLows klines)
    (extractCloses klines) period)

/-- `CalculateStochRSI`: latest K/D values, `nil` under `2 * period` candles. -/
def CalculateStochRSI (lib : TALib) (klines : List Kline) (period : ℕ) :
    Option StochRSIData :=
  if klines.length < period * 2 then none
  else
    let r := lib.stochRsi (extractCloses klines) period 5 3
    some ⟨formatPercent r.1, formatPercent r.2⟩

/-- `CalculateVWAP`: volume-weighted average of the typical prices,
computed natively (no talib). -/
def CalculateVWAP (klines : List Kline) : ℚ :=
  if klines.length = 0 then 0
  else
    let totalPV := (klines.map fun k => (k.High + k.Low + k.Close) / 3 * k.Volume).sum
    let totalVolume := (klines.map Kline.Volume).sum
    if totalVolume = 0 then 0
    else formatPrice (totalPV / totalVolume)

/-- `GetVolume`. -/
def GetVolume (kline : Kline) : ℚ := formatPrice kline.Volume

/-- `calculateTimeframeData` (indicators/short_term.go): one timeframe's
indicator block; `nil` on an empty series, optional second-stage indicators
gated at 28 candles with positivity guards for ADX and VWAP. -/
def calculateTimeframeData (lib : TALib) (klines : List Kline)
    (_timeframe : String) : Option TimeframeData :=
  match klines.getLast? with
  | none => none
  | some latest =>
    let adx : Option ℚ :=
      if 28 ≤ klines.length then
        let adxValue := CalculateADX lib klines 14
        if 0 < adxValue then some adxValue else none
      else none
    let vwap : Option ℚ :=
      if 28 ≤ klines.length then
        let vwapValue := CalculateVWAP klines
        if 0 < vwapValue then some vwapValue else none
      else none
    let stochRSI : Option StochRSIData :=
      if 28 ≤ klines.length then CalculateStochRSI lib klines 14 else none
    some
      { closePrice := formatPrice latest.Close
        highPrice := formatPrice latest.High
        lowPrice := formatPrice latest.Low
        openPrice := formatPrice latest.Open
        ema9 := CalculateEMA lib klines 9
        ema21 := CalculateEMA lib klines 21
        ema55 := CalculateEMA lib klines 55
        macd := CalculateMACD lib klines
        rsi := CalculateRSI lib klines 14
        bb := CalculateBollingerBands lib klines 20 2
        atr := CalculateATR lib klines 14
        volume := GetVolume latest
        adx := adx
        vwap := vwap
        stochRSI := stochRSI }

/-- `ShortTermTimeframes` (config/accounts.go): 1h / 15m / 5m blocks. -/
structure ShortTermTimeframes where
  h1 : Option TimeframeData
  m15 : Option TimeframeData
  m5 : Option TimeframeData
  deriving DecidableEq

/-- `ShortTermIndicators` (config/accounts.go).  The Go `Timeframes` pointer
is always assigned a fresh struct at construction, so it is embedded as a
plain field. -/
structure ShortTermIndicators where
  symbol : String
  timestamp : ℤ
  marketData : Option MarketData
  timeframes : ShortTermTimeframes
  deriving DecidableEq

/-- `LongTermTimeframes` (config/accounts.go): 4h / 1h / 15m blocks. -/
structure LongTermTimeframes where
  h4 : Option TimeframeData
  h1 : Option TimeframeData
  m15 : Option TimeframeData
  deriving DecidableEq

/-- `LongTermIndicators` (config/accounts.go). -/
structure LongTermIndicators where
  symbol : String
  timestamp : ℤ
  marketData : Option MarketData
  timeframes : LongTermTimeframes
  deriving DecidableEq

/-- `CalculateShortTermIndicators` (indicators/short_term.go): `nil` when any
of the three series has fewer than 55 candles, otherwise the three timeframe
blocks.  `time.Now().Unix()` is the explicit `now` argument. -/
def CalculateShortTermIndicators (lib : TALib) (now : ℤ) (symbol : String)
    (klines1h klines15m klines5m : List Kline) : Option ShortTermIndicators :=
  if klines1h.length < 55 ∨ klines15m.length < 55 ∨ klines5m.length < 55 then none
  else some
    { symbol := symbol
      timestamp := now
      marketData := none
      timeframes :=
        { h1 := calculateTimeframeData lib klines1h "1h"
          m15 := calculateTimeframeData lib klines15m "15m"
          m5 := calculateTimeframeData lib klines5m "5m" } }

/-- `CalculateLongTermIndicators` (long-term counterpart of short_term.go). -/
def CalculateLongTermIndicators (lib : TALib) (now : ℤ) (symbol : String)
    (klines4h klines1h klines15m : List Kline) : Option LongTermIndicators :=
  if klines4h.length < 55 ∨ klines1h.length < 55 ∨ klines15m.length < 55 then none
  else some
    { symbol := symbol
      timestamp := now
      marketData := none
      timeframes :=
        { h4 := calculateTimeframeData lib klines4h "4h"
          h1 := calculateTimeframeData lib klines1h "1h"
          m15 := calculateTimeframeData lib klines15m "15m" } }

/-- Go runtime faults observable in this embedding. -/
inductive GoPanic where
  | nilPointerDereference
  deriving DecidableEq

/-- `CalculateShortTermIndicatorsWithMarket` (indicators/short_term.go).
After the base indicators are computed, market data is attached when
available; the completion log then reads `marketData.OICurrent`
unconditionally, which dereferences a nil pointer whenever
`CalculateMarketData` returned `nil`. -/
def CalculateShortTermIndicatorsWithMarket (lib : TALib) (now : ℤ)
    (symbol : String) (klines1h klines15m klines5m : List Kline)
    (env : MarketEnv) (oiCache : Option OICache) :
    Except GoPanic (Option ShortTermIndicators) :=
  match CalculateShortTermIndicators lib now symbol klines1h klines15m klines5m with
  | none => .ok none
  | some ind =>
    let currentPrice := ((ind.timeframes.m5.map TimeframeData.closePrice).getD 0)
    let marketData := CalculateMarketData env symbol currentPrice oiCache
    let ind2 := match marketData with
      | some md => { ind with marketData := some md }
      | none => ind
    match marketData with
    | none => .error .nilPointerDereference
    | some _ => .ok (some ind2)

/-- `CalculateLongTermIndicatorsWithMarket`: same shape over 4h / 1h / 15m,
with the entry price taken from the 15m block; it has the same unconditional
`marketData.OICurrent` read in its completion log. -/
def CalculateLongTermIndicatorsWithMarket (lib : TALib) (now : ℤ)
    (symbol : String) (klines4h klines1h klines15m : List Kline)
    (env : MarketEnv) (oiCache : Option OICache) :
    Except GoPanic (Option LongTermIndicators) :=
  match CalculateLongTermIndicators lib now symbol klines4h klines1h klines15m with
  | none => .ok none
  | some ind =>
    let currentPrice := ((ind.timeframes.m15.map TimeframeData.closePrice).getD 0)
    let marketData := CalculateMarketData env symbol currentPrice oiCache
    let ind2 := match marketData with
      | some md => { ind with marketData := some md }
      | none => ind
    match marketData with
    | none => .error .nilPointerDereference
    | some _ => .ok (some ind2)

/-- `OICacheManager` (utils package): per-symbol caches behind one lock.
The map is embedded as a function; the lock is irrelevant at this level
(the claims are about the sequential contract). -/
structure OICacheManager where
  caches : String → Option OICache
  maxSize : ℕ

/-- `NewOICacheManager`: non-positive capacities default to 5. -/
def NewOICacheManager (maxSize : ℤ) : OICacheManager :=
  { caches := fun _ => none
    maxSize := if maxSize ≤ 0 then 5 else maxSize.toNat }

/-- `OICacheManager.Get`: the symbol's cache, or `nil` when unknown. -/
def OICacheManager.Get (m : OICacheManager) (symbol : String) : Option OICache :=
  m.caches symbol

/-- `OICacheManager.Update`: create the entry if missing, prepend the new
sample, truncate to `maxSize`. -/
def OICacheManager.Update (m : OICacheManager) (symbol : String) (oi : ℚ)
    (timestamp : ℤ) : OICacheManager :=
  let c := (m.caches symbol).getD ⟨symbol, [], []⟩
  let history := oi :: c.history
  let timestamps := timestamp :: c.timestamps
  let c' :=
    if m.maxSize < history.length then
      { c with history := history.take m.maxSize,
               timestamps := timestamps.take m.maxSize }
    else
      { c with history := history, timestamps := timestamps }
  { m with caches := fun s => if s = symbol then some c' else m.caches s }

/-- `OICacheManager.IsExpired`: `true` for an unknown key, an empty entry, or
a newest sample strictly older than `maxAge` seconds.  `time.Now().Unix()`
is the explicit `now` argument. -/
def OICacheManager.IsExpired (m : OICacheManager) (now : ℤ) (symbol : String)
    (maxAge : ℤ) : Bool :=
  match m.Get symbol with
  | none => true
  | some cache =>
    match cache.timestamps with
    | [] => true
    | latestTimestamp :: _ => decide (maxAge < now - latestTimestamp)

/-- Per-(account, symbol) inputs of one scheduler tick: the candle fetch
result for each timeframe the two strategies use (`none` = fetch error) and
the market-data fetch results. -/
structure SymbolEnv where
  klines1h : Option (List Kline)
  klines15m : Option (List Kline)
  klines5m : Option (List Kline)
  klines4h : Option (List Kline)
  market : MarketEnv

/-- One iteration of the `processShortTermStrategy` fan-out loop for a single
symbol: fetch errors and a nil pipeline result `continue` (state untouched,
no snapshot); on success the cache is updated with the fresh
`MarketData.OICurrent` strictly after the pipeline read the prior cache. -/
def processSymbolShort (lib : TALib) (now : ℤ) (env : SymbolEnv)
    (symbol : String) (m : OICacheManager) :
    Except GoPanic (OICacheManager × Option ShortTermIndicators) :=
  match env.klines1h with
  | none => .ok (m, none)
  | some klines1h =>
  match env.klines15m with
  | none => .ok (m, none)
  | some klines15m =>
  match env.klines5m with
  | none => .ok (m, none)
  | some klines5m =>
    let oiCache := (m.Get symbol).getD ⟨symbol, [], []⟩
    match CalculateShortTermIndicatorsWithMarket lib now symbol
        klines1h klines15m klines5m env.market (some oiCache) with
    | .error p => .error p
    | .ok none => .ok (m, none)
    | .ok (some result) =>
      let m' := match result.marketData with
        | some md => m.Update symbol md.oiCurrent now
        | none => m
      .ok (m', some result)

/-- `processShortTermStrategy`: sequential fan-out over the symbol pool,
threading the cache manager; a Go panic aborts the loop. -/
def processShortTermStrategy (lib : TALib) (now : ℤ) (envs : String → SymbolEnv)
    (symbols : List String) (m : OICacheManager) :
    Except GoPanic (OICacheManager × List (String × Option ShortTermIndicators)) :=
  match symbols with
  | [] => .ok (m, [])
  | s :: rest =>
    match processSymbolShort lib now (envs s) s m with
    | .error p => .error p
    | .ok (m', out) =>
      match processShortTermStrategy lib now envs rest m' with
      | .error p => .error p
      | .ok (m'', outs) => .ok (m'', (s, out) :: outs)

/-- One iteration of the `processLongTermStrategy` fan-out loop. -/
def processSymbolLong (lib : TALib) (now : ℤ) (env : SymbolEnv)
    (symbol : String) (m : OICacheManager) :
    Except GoPanic (OICacheManager × Option LongTermIndicators) :=
  match env.klines4h with
  | none => .ok (m, none)
  | some klines4h =>
  match env.klines1h with
  | none => .ok (m, none)
  | some klines1h =>
  match env.klines15m with
  | none => .ok (m, none)
  | some klines15m =>
    let oiCache := (m.Get symbol).getD ⟨symbol, [], []⟩
    match CalculateLongTermIndicatorsWithMarket lib now symbol
        klines4h klines1h klines15m env.market (some oiCache) with
    | .error p => .error p
    | .ok none => .ok (m, none)
    | .ok (some result) =>
      let m' := match result.marketData with
        | some md => m.Update symbol md.oiCurrent now
        | none => m
      .ok (m', some result)

/-- `processLongTermStrategy`: sequential fan-out over the symbol pool. -/
def processLongTermStrategy (lib : TALib) (now : ℤ) (envs : String → SymbolEnv)
    (symbols : List String) (m : OICacheManager) :
    Except GoPanic (OICacheManager × List (String × Option LongTermIndicators)) :=
  match symbols with
  | [] => .ok (m, [])
  | s :: rest =>
    match processSymbolLong lib now (envs s) s m with
    | .error p => .error p
    | .ok (m', out) =>
      match processLongTermStrategy lib now envs rest m' with
      | .error p => .error p
      | .ok (m'', outs) => .ok (m'', (s, out) :: outs)

/-- Candle-fetch failure for the short strategy's three timeframes. -/
def candleFetchFailedShort (e : SymbolEnv) : Bool :=
  e.klines1h.isNone || e.klines15m.isNone || e.klines5m.isNone

/-- All short-strategy candle fetches succeeded but some series is under the
55-candle minimum. -/
def insufficientCandlesShort (e : SymbolEnv) : Bool :=
  match e.klines1h, e.klines15m, e.klines5m with
  | some k1, some k2, some k3 =>
    decide (k1.length < 55 ∨ k2.length < 55 ∨ k3.length < 55)
  | _, _, _ => false

/-- A short-strategy pair that the loop must skip: candle-fetch error or
insufficient candle data. -/
def skipPairShort (e : SymbolEnv) : Bool :=
  candleFetchFailedShort e || insufficientCandlesShort e

/-- A short-strategy pair whose fetches all succeed with enough candles and
whose market-data fetches succeed. -/
def goodPairShort (e : SymbolEnv) : Bool :=
  match e.klines1h, e.klines15m, e.klines5m with
  | some k1, some k2, some k3 =>
    decide (55 ≤ k1.length ∧ 55 ≤ k2.length ∧ 55 ≤ k3.length) &&
      e.market.openInterest.isSome && e.market.lastFundingRate.isSome
  | _, _, _ => false

/-- Candle-fetch failure for the long strategy's three timeframes. -/
def candleFetchFailedLong (e : SymbolEnv) : Bool :=
  e.klines4h.isNone || e.klines1h.isNone || e.klines15m.isNone

/-- All long-strategy candle fetches succeeded but some series is under the
55-candle minimum. -/
def insufficientCandlesLong (e : SymbolEnv) : Bool :=
  match e.klines4h, e.klines1h, e.klines15m with
  | some k1, some k2, some k3 =>
    decide (k1.length < 55 ∨ k2.length < 55 ∨ k3.length < 55)
  | _, _, _ => false

/-- A long-strategy pair that the loop must skip. -/
def skipPairLong (e : SymbolEnv) : Bool :=
  candleFetchFailedLong e || insufficientCandlesLong e

/-- A long-strategy pair whose fetches all succeed with enough candles and
whose market-data fetches succeed. -/
def goodPairLong (e : SymbolEnv) : Bool :=
  match e.klines4h, e.klines1h, e.klines15m with
  | some k1, some k2, some k3 =>
    decide (55 ≤ k1.length ∧ 55 ≤ k2.length ∧ 55 ≤ k3.length) &&
      e.market.openInterest.isSome && e.market.lastFundingRate.isSome
  | _, _, _ => false

/-- History of a symbol as `Get` exposes it (empty for an unknown key). -/
def historyOf (m : OICacheManager) (symbol : String) : List ℚ :=
  ((m.Get symbol).map OICache.history).getD []

/-- Fold a call sequence of `OICacheManager.Update` over a manager. -/
def applyCacheUpdates (m : OICacheManager) (updates : List (String × ℚ × ℤ)) :
    OICacheManager :=
  updates.foldl (fun acc u => acc.Update u.1 u.2.1 u.2.2) m

/-- Fold a call sequence of the pure `UpdateOICache` helper over one cache. -/
def applyPureUpdates (cache : Option OICache) (updates : List (ℚ × ℤ))
    (maxSize : ℤ) : Option OICache :=
  updates.foldl (fun acc u => some (UpdateOICache acc u.1 u.2 maxSize)) cache

/-! Concrete fixtures used by witnesses and counterexamples. -/

/-- A concrete instance of the external indicator-math collaborator. -/
def trivLib : TALib :=
  { ema := fun _ _ => 0
    macd := fun _ _ _ _ => (0, 0, 0)
    rsi := fun _ _ => 0
    bbands := fun _ _ _ => (0, 0, 0)
    atr := fun _ _ _ _ => 0
    adx := fun _ _ _ _ => 0
    stochRsi := fun _ _ _ _ => (0, 0) }

/-- Market fetches all succeed: OI parses to 2, funding rate 0, empty history. -/
def envOK : MarketEnv := ⟨some 2, some 0, some []⟩

/-- The open-interest fetch fails; the funding fetches succeed. -/
def envOIFail : MarketEnv := ⟨none, some 0, some []⟩

/-- A one-candle fixture. -/
def kOne : Kline := ⟨1, 1, 1, 1, 1⟩

/-- 55 candles: exactly the pipeline minimum. -/
def ks55 : List Kline := List.replicate 55 kOne

end AITrader

namespace AITrader

/-- An all-zero `MarketData` used as a `getD` default in closed statements. -/
def mdZero : MarketData := ⟨0, [], none, none, none, none, none, 0, 0⟩

lemma applyOIChanges_oiChange5m (cur : ℚ) (h : List ℚ) (md : MarketData)
    (h5 : md.oiChange5m = none) :
    (applyOIChanges cur h md).oiChange5m =
      if 2 ≤ h.length then some (calculateOIChangeRate cur (h.getD 0 0)) else none := by
  simp only [applyOIChanges]
  split_ifs <;> simp_all

lemma applyOIChanges_oiChange15m (cur : ℚ) (h : List ℚ) (md : MarketData)
    (h15 : md.oiChange15m = none) :
    (applyOIChanges cur h md).oiChange15m =
      if 4 ≤ h.length then some (calculateOIChangeRate cur (h.getD 2 0)) else none := by
  simp only [applyOIChanges]
  split_ifs <;> simp_all

lemma applyOIChanges_oiChange25m (cur : ℚ) (h : List ℚ) (md : MarketData)
    (h25 : md.oiChange25m = none) :
    (applyOIChanges cur h md).oiChange25m =
      if 5 ≤ h.length then some (calculateOIChangeRate cur (h.getD 4 0)) else none := by
  simp only [applyOIChanges]
  split_ifs <;> simp_all

lemma applyOIChanges_oiChange45m (cur : ℚ) (h : List ℚ) (md : MarketData)
    (h45 : md.oiChange45m = none) :
    (applyOIChanges cur h md).oiChange45m =
      if 5 ≤ h.length then some (calculateOIChangeRate cur (h.getD 4 0)) else none := by
  simp only [applyOIChanges]
  split_ifs <;> simp_all

lemma applyOIChanges_oiChange75m (cur : ℚ) (h : List ℚ) (md : MarketData) :
    (applyOIChanges cur h md).oiChange75m = md.oiChange75m := by
  simp only [applyOIChanges]
  split_ifs <;> simp

/-- Destructuring a successful `CalculateMarketData` call: the change-rate
fields of the result are exactly those attached by `applyOIChanges` over the
supplied cache history (empty history for a nil cache). -/
lemma CalculateMarketData_eq_some {env : MarketEnv} {symbol : String}
    {price : ℚ} {cache : Option OICache} {md : MarketData}
    (h : CalculateMarketData env symbol price cache = some md) :
    ∃ cur base, base.oiChange5m = none ∧ base.oiChange15m = none ∧
      base.oiChange25m = none ∧ base.oiChange45m = none ∧
      base.oiChange75m = none ∧
      md = applyOIChanges cur ((cache.map OICache.history).getD []) base := by
  unfold CalculateMarketData CalculateOIMetrics at h
  cases hoi : env.openInterest with
  | none => rw [hoi] at h; exact absurd h (by simp)
  | some oiv =>
    rw [hoi] at h
    cases hfm : CalculateFundingMetrics env with
    | none => rw [hfm] at h; exact absurd h (by simp)
    | some fm =>
      rw [hfm] at h
      simp only [Option.some_inj] at h
      cases cache with
      | none =>
        refine ⟨0, md, ?_, ?_, ?_, ?_, ?_, ?_⟩ <;>
          simp [← h, applyOIChanges]
      | some c =>
        exact ⟨formatPrice (oiv * price) / 1000000, _, rfl, rfl, rfl, rfl, rfl,
          h.symm⟩

/-- C8: in every `MarketData` produced by `CalculateMarketData`, the 45m
change equals the 25m change (same presence, same index-4 source value) and
the 75m field is never populated. -/
theorem c8_mirror_45m_25m (env : MarketEnv) (symbol : String) (price : ℚ)
    (cache : Option OICache) (md : MarketData)
    (h : CalculateMarketData env symbol price cache = some md) :
    md.oiChange45m = md.oiChange25m ∧ md.oiChange75m = none := by
  obtain ⟨cur, base, h5, h15, h25, h45, h75, hmd⟩ := CalculateMarketData_eq_some h
  subst hmd
  rw [applyOIChanges_oiChange45m _ _ _ h45, applyOIChanges_oiChange25m _ _ _ h25,
    applyOIChanges_oiChange75m]
  exact ⟨rfl, h75⟩

/-- C8 witness: a concrete successful call with a 5-deep history. -/
theorem c8_mirror_45m_25m_witness :
    ((CalculateMarketData envOK "ETHUSDT" 2
        (some ⟨"ETHUSDT", [1, 2, 3, 4, 5], [0, 0, 0, 0, 0]⟩)).getD mdZero).oiChange45m =
      ((CalculateMarketData envOK "ETHUSDT" 2
        (some ⟨"ETHUSDT", [1, 2, 3, 4, 5], [0, 0, 0, 0, 0]⟩)).getD mdZero).oiChange25m ∧
    ((CalculateMarketData envOK "ETHUSDT" 2
        (some ⟨"ETHUSDT", [1, 2, 3, 4, 5], [0, 0, 0, 0, 0]⟩)).getD mdZero).oiChange75m = none :=
  c8_mirror_45m_25m envOK "ETHUSDT" 2
    (some ⟨"ETHUSDT", [1, 2, 3, 4, 5], [0, 0, 0, 0, 0]⟩) _ rfl

/-- C1 (counterexample): the claim says offset `o` is present iff the history
length is at least `o + 1`, so a 3-deep buffer should expose the offset-2
(15m) change; the code requires length ≥ 4 for it, so it is absent (while the
offset-0 change is present). -/
theorem c1_offset_presence_counterexample :
    (CalculateMarketData envOK "BTCUSDT" 1
        (some ⟨"BTCUSDT", [10, 11, 12], [0, 0, 0]⟩)).map
        (fun md => (md.oiChange5m.isSome, md.oiChange15m.isSome)) =
      some (true, false) ∧
    ([(10 : ℚ), 11, 12].length = 3) := ⟨rfl, rfl⟩

/-- C1 (amended): for a successful `CalculateMarketData` call over a cache of
length `k`, the offset-0 (5m) change is present iff `k ≥ 2`, the offset-2
(15m) change iff `k ≥ 4`, and the offset-4 (25m) change iff `k ≥ 5`; absent
fields are nil, not zero. -/
theorem c1_offset_presence (env : MarketEnv) (symbol : String) (price : ℚ)
    (c : OICache) (md : MarketData)
    (h : CalculateMarketData env symbol price (some c) = some md) :
    (md.oiChange5m.isSome ↔ 2 ≤ c.history.length) ∧
      (md.oiChange15m.isSome ↔ 4 ≤ c.history.length) ∧
      (md.oiChange25m.isSome ↔ 5 ≤ c.history.length) := by
  obtain ⟨cur, base, h5, h15, h25, h45, h75, hmd⟩ := CalculateMarketData_eq_some h
  subst hmd
  rw [applyOIChanges_oiChange5m _ _ _ h5, applyOIChanges_oiChange15m _ _ _ h15,
    applyOIChanges_oiChange25m _ _ _ h25]
  refine ⟨?_, ?_, ?_⟩ <;> (split <;> simp_all)

/-- C1 witness: the amended statement at a 3-deep history (5m present, 15m
and 25m absent). -/
theorem c1_offset_presence_witness :
    (((CalculateMarketData envOK "BTCUSDT" 1
        (some ⟨"BTCUSDT", [10, 11, 12], [0, 0, 0]⟩)).getD mdZero).oiChange5m.isSome ↔
      2 ≤ (⟨"BTCUSDT", [10, 11, 12], [0, 0, 0]⟩ : OICache).history.length) ∧
    (((CalculateMarketData envOK "BTCUSDT" 1
        (some ⟨"BTCUSDT", [10, 11, 12], [0, 0, 0]⟩)).getD mdZero).oiChange15m.isSome ↔
      4 ≤ (⟨"BTCUSDT", [10, 11, 12], [0, 0, 0]⟩ : OICache).history.length) ∧
    (((CalculateMarketData envOK "BTCUSDT" 1
        (some ⟨"BTCUSDT", [10, 11, 12], [0, 0, 0]⟩)).getD mdZero).oiChange25m.isSome ↔
      5 ≤ (⟨"BTCUSDT", [10, 11, 12], [0, 0, 0]⟩ : OICache).history.length) :=
  c1_offset_presence envOK "BTCUSDT" 1 ⟨"BTCUSDT", [10, 11, 12], [0, 0, 0]⟩ _ rfl

/-- C4 (counterexample): the claim says `calculateOIChangeRate c p` equals
`(c - p) / p * 100` for non-zero `p`; at `c = 1, p = 3` the code rounds the
quotient to 2 decimals (`-66.67`), which differs from `-200/3`. -/
theorem c4_change_rate_counterexample :
    calculateOIChangeRate 1 3 ≠ (1 - 3) / 3 * 100 ∧
      calculateOIChangeRate 1 3 = -6667 / 100 := by
  constructor <;> norm_num [calculateOIChangeRate, formatPercent, goRound]

/-- C4 (amended): both change-rate functions return 0 for a zero previous
value; for non-zero `p`, `CalculateOIChange` (binance package) returns the raw
`(c - p) / p * 100` while `calculateOIChangeRate` (indicators package) returns
that quantity rounded half-away-from-zero to 2 decimal places. -/
theorem c4_change_rate_amended (c p : ℚ) :
    calculateOIChangeRate c 0 = 0 ∧ CalculateOIChange c 0 = 0 ∧
      (p ≠ 0 →
        CalculateOIChange c p = (c - p) / p * 100 ∧
          calculateOIChangeRate c p = formatPercent ((c - p) / p * 100)) := by
  refine ⟨by simp [calculateOIChangeRate], by simp [CalculateOIChange], fun hp => ?_⟩
  exact ⟨by simp [CalculateOIChange, hp], by simp [calculateOIChangeRate, hp]⟩

/-- C4 witness: the amended statement evaluated at `c = 1, p = 3`. -/
theorem c4_change_rate_witness :
    CalculateOIChange 1 3 = (1 - 3) / 3 * 100 ∧
      calculateOIChangeRate 1 3 = formatPercent ((1 - 3) / 3 * 100) :=
  (c4_change_rate_amended 1 3).2.2 (by norm_num)

lemma calculateTimeframeData_isSome (lib : TALib) (klines : List Kline)
    (tf : String) (h : 0 < klines.length) :
    (calculateTimeframeData lib klines tf).isSome = true := by
  unfold calculateTimeframeData
  cases hl : klines.getLast? with
  | none =>
    rw [List.getLast?_eq_none_iff] at hl
    subst hl
    simp at h
  | some latest => simp

/-- C5: the short- and long-term pipelines return no snapshot exactly when
some timeframe series has fewer than 55 candles; with all three at 55 or
more, the snapshot exists and all three timeframe blocks are populated. -/
theorem c5_min_candles (lib : TALib) (now : ℤ) (symbol : String)
    (k1 k2 k3 l1 l2 l3 : List Kline) :
    (CalculateShortTermIndicators lib now symbol k1 k2 k3 = none ↔
      k1.length < 55 ∨ k2.length < 55 ∨ k3.length < 55) ∧
    (55 ≤ k1.length → 55 ≤ k2.length → 55 ≤ k3.length →
      ∃ ind, CalculateShortTermIndicators lib now symbol k1 k2 k3 = some ind ∧
        ind.timeframes.h1.isSome = true ∧ ind.timeframes.m15.isSome = true ∧
        ind.timeframes.m5.isSome = true) ∧
    (CalculateLongTermIndicators lib now symbol l1 l2 l3 = none ↔
      l1.length < 55 ∨ l2.length < 55 ∨ l3.length < 55) ∧
    (55 ≤ l1.length → 55 ≤ l2.length → 55 ≤ l3.length →
      ∃ ind, CalculateLongTermIndicators lib now symbol l1 l2 l3 = some ind ∧
        ind.timeframes.h4.isSome = true ∧ ind.timeframes.h1.isSome = true ∧
        ind.timeframes.m15.isSome = true) := by
  refine ⟨?_, ?_, ?_, ?_⟩
  · unfold CalculateShortTermIndicators
    split <;> simp_all
  · intro h1 h2 h3
    refine ⟨⟨symbol, now, none,
      ⟨calculateTimeframeData lib k1 "1h", calculateTimeframeData lib k2 "15m",
        calculateTimeframeData lib k3 "5m"⟩⟩, ?_, ?_, ?_, ?_⟩
    · unfold CalculateShortTermIndicators
      rw [if_neg (by omega)]
    · exact calculateTimeframeData_isSome lib k1 "1h" (by omega)
    · exact calculateTimeframeData_isSome lib k2 "15m" (by omega)
    · exact calculateTimeframeData_isSome lib k3 "5m" (by omega)
  · unfold CalculateLongTermIndicators
    split <;> simp_all
  · intro h1 h2 h3
    refine ⟨⟨symbol, now, none,
      ⟨calculateTimeframeData lib l1 "4h", calculateTimeframeData lib l2 "1h",
        calculateTimeframeData lib l3 "15m"⟩⟩, ?_, ?_, ?_, ?_⟩
    · unfold CalculateLongTermIndicators
      rw [if_neg (by omega)]
    · exact calculateTimeframeData_isSome lib l1 "4h" (by omega)
    · exact calculateTimeframeData_isSome lib l2 "1h" (by omega)
    · exact calculateTimeframeData_isSome lib l3 "15m" (by omega)

/-- C5 witness: the populated part at exactly 55 candles per series. -/
theorem c5_min_candles_witness :
    ∃ ind, CalculateShortTermIndicators trivLib 0 "BTCUSDT" ks55 ks55 ks55 = some ind ∧
      ind.timeframes.h1.isSome = true ∧ ind.timeframes.m15.isSome = true ∧
      ind.timeframes.m5.isSome = true :=
  (c5_min_candles trivLib 0 "BTCUSDT" ks55 ks55 ks55 ks55 ks55 ks55).2.1
    (by decide) (by decide) (by decide)

/-- C2 (code bug): with 55 valid candles per timeframe and a failed
open-interest fetch, `CalculateMarketData` returns nil and both
`...WithMarket` functions dereference the nil `marketData` pointer in their
completion log — a runtime panic — although the base indicators had been
computed (`isSome`).  The spec requires the indicators to be returned with
the market block absent and forbids panics. -/
theorem c2_augmentation_failure_panics :
    CalculateShortTermIndicatorsWithMarket trivLib 0 "ETHUSDT" ks55 ks55 ks55
        envOIFail (some ⟨"ETHUSDT", [], []⟩) = .error .nilPointerDereference ∧
    (CalculateShortTermIndicators trivLib 0 "ETHUSDT" ks55 ks55 ks55).isSome = true ∧
    CalculateLongTermIndicatorsWithMarket trivLib 0 "ETHUSDT" ks55 ks55 ks55
        envOIFail (some ⟨"ETHUSDT", [], []⟩) = .error .nilPointerDereference ∧
    (CalculateLongTermIndicators trivLib 0 "ETHUSDT" ks55 ks55 ks55).isSome = true :=
  ⟨rfl, rfl, rfl, rfl⟩

lemma take_append_take {α : Type*} (R X : List α) (n : ℕ) :
    (R ++ X.take n).take n = (R ++ X).take n := by
  rw [List.take_append_eq_append_take, List.take_append_eq_append_take,
    List.take_take, Nat.min_eq_left (Nat.sub_le n R.length)]

lemma historyOf_eq_getD (m : OICacheManager) (k : String) :
    historyOf m k = ((m.caches k).getD ⟨k, [], []⟩).history := by
  unfold historyOf OICacheManager.Get
  cases m.caches k <;> simp

lemma historyOf_Update_self (m : OICacheManager) (k : String) (v : ℚ) (t : ℤ) :
    historyOf (m.Update k v t) k = (v :: historyOf m k).take m.maxSize := by
  rw [historyOf_eq_getD (m.Update k v t) k, historyOf_eq_getD m k]
  simp only [OICacheManager.Update, if_pos, Option.getD_some]
  split
  · rfl
  · next hle =>
    rw [List.take_of_length_le (by simp only [List.length_cons] at hle ⊢; omega)]

lemma historyOf_Update_other (m : OICacheManager) (symbol : String) (v : ℚ)
    (t : ℤ) (k : String) (hk : k ≠ symbol) :
    historyOf (m.Update symbol v t) k = historyOf m k := by
  rw [historyOf_eq_getD (m.Update symbol v t) k, historyOf_eq_getD m k]
  simp only [OICacheManager.Update, if_neg hk]

lemma Update_maxSize (m : OICacheManager) (k : String) (v : ℚ) (t : ℤ) :
    (m.Update k v t).maxSize = m.maxSize := rfl

lemma applyCacheUpdates_historyOf (us : List (String × ℚ × ℤ)) :
    ∀ (m : OICacheManager) (k : String), (historyOf m k).length ≤ m.maxSize →
      historyOf (applyCacheUpdates m us) k =
        (((us.filter fun u => u.1 == k).map fun u => u.2.1).reverse ++
          historyOf m k).take m.maxSize := by
  induction us with
  | nil =>
    intro m k hlen
    simp [applyCacheUpdates, List.take_of_length_le hlen]
  | cons u rest ih =>
    intro m k hlen
    have hstep : applyCacheUpdates m (u :: rest) =
        applyCacheUpdates (m.Update u.1 u.2.1 u.2.2) rest := rfl
    have hinv : (historyOf (m.Update u.1 u.2.1 u.2.2) k).length ≤
        (m.Update u.1 u.2.1 u.2.2).maxSize := by
      rw [Update_maxSize]
      by_cases hk : k = u.1
      · subst hk
        rw [historyOf_Update_self, List.length_take]
        exact Nat.min_le_left _ _
      · rw [historyOf_Update_other _ _ _ _ _ hk]
        exact hlen
    rw [hstep, ih (m.Update u.1 u.2.1 u.2.2) k hinv, Update_maxSize]
    by_cases hk : u.1 = k
    · rw [List.filter_cons_of_pos (by simp [hk]), hk, historyOf_Update_self]
      rw [take_append_take]
      simp [List.append_assoc]
    · rw [List.filter_cons_of_neg (by simp [hk]),
        historyOf_Update_other _ _ _ _ _ (fun hkk => hk hkk.symm)]

lemma UpdateOICache_history (cache : Option OICache) (v : ℚ) (t : ℤ)
    (maxSize : ℤ) :
    (UpdateOICache cache v t maxSize).history =
      (v :: ((cache.map OICache.history).getD [])).take maxSize.toNat := by
  simp only [UpdateOICache]
  cases cache with
  | none =>
    simp only [Option.getD_none, Option.map_none']
    split
    · rfl
    · next hle =>
      rw [List.take_of_length_le
        (by simp only [List.length_cons, List.length_nil] at hle ⊢; omega)]
  | some c =>
    simp only [Option.getD_some, Option.map_some']
    split
    · rfl
    · next hle =>
      rw [List.take_of_length_le (by simp only [List.length_cons] at hle ⊢; omega)]

lemma applyPureUpdates_history (maxSize : ℤ) (vs : List (ℚ × ℤ)) :
    ∀ (c : Option OICache),
      ((c.map OICache.history).getD []).length ≤ maxSize.toNat →
      (((applyPureUpdates c vs maxSize).map OICache.history).getD []) =
        ((vs.map Prod.fst).reverse ++
          (c.map OICache.history).getD []).take maxSize.toNat := by
  induction vs with
  | nil =>
    intro c hc
    simp [applyPureUpdates, List.take_of_length_le hc]
  | cons v rest ih =>
    intro c hc
    have hstep : applyPureUpdates c (v :: rest) maxSize =
        applyPureUpdates (some (UpdateOICache c v.1 v.2 maxSize)) rest maxSize := rfl
    rw [hstep, ih (some (UpdateOICache c v.1 v.2 maxSize))
      (by rw [Option.map_some', Option.getD_some, UpdateOICache_history,
        List.length_take]; exact Nat.min_le_left _ _)]
    rw [Option.map_some', Option.getD_some, UpdateOICache_history,
      take_append_take]
    simp [List.append_assoc]

/-- C3: after any sequence of `Update` calls on a positively-sized manager,
`Get` exposes at most `maxSize` entries, and exactly the values of the last
`min(maxSize, n)` updates of that key, newest first; the pure `UpdateOICache`
helper folded over one key satisfies the same law. -/
theorem c3_last_updates_newest_first (maxSize : ℤ) (h : 0 < maxSize)
    (us : List (String × ℚ × ℤ)) (k : String) (vs : List (ℚ × ℤ)) :
    historyOf (applyCacheUpdates (NewOICacheManager maxSize) us) k =
      (((us.filter fun u => u.1 == k).map fun u => u.2.1).reverse).take maxSize.toNat ∧
    (historyOf (applyCacheUpdates (NewOICacheManager maxSize) us) k).length ≤
      maxSize.toNat ∧
    ((applyPureUpdates none vs maxSize).map OICache.history).getD [] =
      ((vs.map Prod.fst).reverse).take maxSize.toNat := by
  have hnew : (NewOICacheManager maxSize).maxSize = maxSize.toNat := by
    unfold NewOICacheManager
    simp only [if_neg (by omega : ¬maxSize ≤ 0)]
  have h0 : historyOf (NewOICacheManager maxSize) k = [] := rfl
  have hmain := applyCacheUpdates_historyOf us (NewOICacheManager maxSize) k
    (by rw [h0]; simp)
  rw [h0, List.append_nil, hnew] at hmain
  have hpure := applyPureUpdates_history maxSize vs none (by simp)
  rw [Option.map_none', Option.getD_none, List.append_nil] at hpure
  exact ⟨hmain, by rw [hmain, List.length_take]; exact Nat.min_le_left _ _, hpure⟩

/-- C3 witness: capacity 5, seven updates 10..16 on one key; `Get` returns
`[16, 15, 14, 13, 12]`. -/
theorem c3_last_updates_newest_first_witness :
    historyOf (applyCacheUpdates (NewOICacheManager 5)
        [("B", 10, 1), ("B", 11, 2), ("B", 12, 3), ("B", 13, 4), ("B", 14, 5),
          ("B", 15, 6), ("B", 16, 7)]) "B" =
      ((([(("B" : String), (10 : ℚ), (1 : ℤ)), ("B", 11, 2), ("B", 12, 3),
          ("B", 13, 4), ("B", 14, 5), ("B", 15, 6),
          ("B", 16, 7)].filter fun u => u.1 == "B").map fun u => u.2.1).reverse).take
        (5 : ℤ).toNat :=
  (c3_last_updates_newest_first 5 (by norm_num)
    [("B", 10, 1), ("B", 11, 2), ("B", 12, 3), ("B", 13, 4), ("B", 14, 5),
      ("B", 15, 6), ("B", 16, 7)] "B" []).1

lemma CalculateFundingMetrics_isSome (env : MarketEnv)
    (h : env.lastFundingRate.isSome = true) :
    (CalculateFundingMetrics env).isSome = true := by
  unfold CalculateFundingMetrics
  cases hr : env.lastFundingRate with
  | none => rw [hr] at h; simp at h
  | some r => cases hh : env.fundingRateHistory <;> simp

lemma CalculateMarketData_isSome (env : MarketEnv) (symbol : String)
    (price : ℚ) (cache : Option OICache)
    (hoi : env.openInterest.isSome = true)
    (hfr : env.lastFundingRate.isSome = true) :
    (CalculateMarketData env symbol price cache).isSome = true := by
  unfold CalculateMarketData CalculateOIMetrics
  cases ho : env.openInterest with
  | none => rw [ho] at hoi; simp at hoi
  | some oiv =>
    have hfm := CalculateFundingMetrics_isSome env hfr
    cases hfm' : CalculateFundingMetrics env with
    | none => rw [hfm'] at hfm; simp at hfm
    | some fm => simp

lemma processSymbolShort_skip (lib : TALib) (now : ℤ) (e : SymbolEnv)
    (s : String) (m : OICacheManager) (h : skipPairShort e = true) :
    processSymbolShort lib now e s m = .ok (m, none) := by
  unfold skipPairShort candleFetchFailedShort insufficientCandlesShort at h
  cases h1 : e.klines1h with
  | none => simp [processSymbolShort, h1]
  | some k1 =>
    cases h2 : e.klines15m with
    | none => simp [processSymbolShort, h1, h2]
    | some k2 =>
      cases h3 : e.klines5m with
      | none => simp [processSymbolShort, h1, h2, h3]
      | some k3 =>
        rw [h1, h2, h3] at h
        simp only [Option.isNone_some, Bool.or_self, Bool.false_or,
          decide_eq_true_eq] at h
        simp [processSymbolShort, h1, h2, h3,
          CalculateShortTermIndicatorsWithMarket,
          CalculateShortTermIndicators, if_pos h]

lemma processSymbolShort_good (lib : TALib) (now : ℤ) (e : SymbolEnv)
    (s : String) (m : OICacheManager) (h : goodPairShort e = true) :
    ∃ m' res, processSymbolShort lib now e s m = .ok (m', some res) := by
  unfold goodPairShort at h
  cases h1 : e.klines1h with
  | none => rw [h1] at h; simp at h
  | some k1 =>
    cases h2 : e.klines15m with
    | none => rw [h1, h2] at h; simp at h
    | some k2 =>
      cases h3 : e.klines5m with
      | none => rw [h1, h2, h3] at h; simp at h
      | some k3 =>
        rw [h1, h2, h3] at h
        simp only [Bool.and_eq_true, decide_eq_true_eq, Option.isSome_iff_exists] at h
        obtain ⟨⟨⟨hl1, hl2, hl3⟩, oiv, hoiv⟩, r, hr⟩ := h
        have hind : CalculateShortTermIndicators lib now s k1 k2 k3 =
            some ⟨s, now, none,
              ⟨calculateTimeframeData lib k1 "1h", calculateTimeframeData lib k2 "15m",
                calculateTimeframeData lib k3 "5m"⟩⟩ := by
          unfold CalculateShortTermIndicators
          rw [if_neg (by omega)]
        have hmds : (CalculateMarketData e.market s
            (((calculateTimeframeData lib k3 "5m").map TimeframeData.closePrice).getD 0)
            (some ((m.Get s).getD ⟨s, [], []⟩))).isSome = true :=
          CalculateMarketData_isSome _ _ _ _ (by rw [hoiv]; rfl) (by rw [hr]; rfl)
        obtain ⟨md, hmd⟩ := Option.isSome_iff_exists.mp hmds
        refine ⟨m.Update s md.oiCurrent now,
          ⟨s, now, some md,
            ⟨calculateTimeframeData lib k1 "1h", calculateTimeframeData lib k2 "15m",
              calculateTimeframeData lib k3 "5m"⟩⟩, ?_⟩
        simp [processSymbolShort, h1, h2, h3,
          CalculateShortTermIndicatorsWithMarket, hind, hmd]

lemma processSymbolLong_skip (lib : TALib) (now : ℤ) (e : SymbolEnv)
    (s : String) (m : OICacheManager) (h : skipPairLong e = true) :
    processSymbolLong lib now e s m = .ok (m, none) := by
  unfold skipPairLong candleFetchFailedLong insufficientCandlesLong at h
  cases h1 : e.klines4h with
  | none => simp [processSymbolLong, h1]
  | some k1 =>
    cases h2 : e.klines1h with
    | none => simp [processSymbolLong, h1, h2]
    | some k2 =>
      cases h3 : e.klines15m with
      | none => simp [processSymbolLong, h1, h2, h3]
      | some k3 =>
        rw [h1, h2, h3] at h
        simp only [Option.isNone_some, Bool.or_self, Bool.false_or,
          decide_eq_true_eq] at h
        simp [processSymbolLong, h1, h2, h3,
          CalculateLongTermIndicatorsWithMarket,
          CalculateLongTermIndicators, if_pos h]

lemma processSymbolLong_good (lib : TALib) (now : ℤ) (e : SymbolEnv)
    (s : String) (m : OICacheManager) (h : goodPairLong e = true) :
    ∃ m' res, processSymbolLong lib now e s m = .ok (m', some res) := by
  unfold goodPairLong at h
  cases h1 : e.klines4h with
  | none => rw [h1] at h; simp at h
  | some k1 =>
    cases h2 : e.klines1h with
    | none => rw [h1, h2] at h; simp at h
    | some k2 =>
      cases h3 : e.klines15m with
      | none => rw [h1, h2, h3] at h; simp at h
      | some k3 =>
        rw [h1, h2, h3] at h
        simp only [Bool.and_eq_true, decide_eq_true_eq, Option.isSome_iff_exists] at h
        obtain ⟨⟨⟨hl1, hl2, hl3⟩, oiv, hoiv⟩, r, hr⟩ := h
        have hind : CalculateLongTermIndicators lib now s k1 k2 k3 =
            some ⟨s, now, none,
              ⟨calculateTimeframeData lib k1 "4h", calculateTimeframeData lib k2 "1h",
                calculateTimeframeData lib k3 "15m"⟩⟩ := by
          unfold CalculateLongTermIndicators
          rw [if_neg (by omega)]
        have hmds : (CalculateMarketData e.market s
            (((calculateTimeframeData lib k3 "15m").map TimeframeData.closePrice).getD 0)
            (some ((m.Get s).getD ⟨s, [], []⟩))).isSome = true :=
          CalculateMarketData_isSome _ _ _ _ (by rw [hoiv]; rfl) (by rw [hr]; rfl)
        obtain ⟨md, hmd⟩ := Option.isSome_iff_exists.mp hmds
        refine ⟨m.Update s md.oiCurrent now,
          ⟨s, now, some md,
            ⟨calculateTimeframeData lib k1 "4h", calculateTimeframeData lib k2 "1h",
              calculateTimeframeData lib k3 "15m"⟩⟩, ?_⟩
        simp [processSymbolLong, h1, h2, h3,
          CalculateLongTermIndicatorsWithMarket, hind, hmd]

lemma skipPairShort_not_good (e : SymbolEnv) (hs : skipPairShort e = true) :
    goodPairShort e = false := by
  unfold skipPairShort candleFetchFailedShort insufficientCandlesShort at hs
  unfold goodPairShort
  cases h1 : e.klines1h <;> cases h2 : e.klines15m <;> cases h3 : e.klines5m <;>
    simp_all
  omega

lemma skipPairLong_not_good (e : SymbolEnv) (hs : skipPairLong e = true) :
    goodPairLong e = false := by
  unfold skipPairLong candleFetchFailedLong insufficientCandlesLong at hs
  unfold goodPairLong
  cases h1 : e.klines4h <;> cases h2 : e.klines1h <;> cases h3 : e.klines15m <;>
    simp_all
  omega

lemma processShortTermStrategy_total (lib : TALib) (now : ℤ)
    (envs : String → SymbolEnv) :
    ∀ (symbols : List String) (m : OICacheManager),
      (∀ s ∈ symbols, skipPairShort (envs s) = true ∨ goodPairShort (envs s) = true) →
      ∃ r, processShortTermStrategy lib now envs symbols m = .ok r ∧
        r.2.map Prod.fst = symbols ∧
        ∀ p ∈ r.2, (skipPairShort (envs p.1) = true → p.2 = none) ∧
          (goodPairShort (envs p.1) = true → p.2.isSome = true) := by
  intro symbols
  induction symbols with
  | nil =>
    intro m _
    exact ⟨(m, []), rfl, rfl, by simp⟩
  | cons s rest ih =>
    intro m h
    rcases h s (List.mem_cons_self s rest) with hskip | hgood
    · obtain ⟨r, hr, hmap, hall⟩ := ih m (fun x hx => h x (List.mem_cons_of_mem _ hx))
      refine ⟨(r.1, (s, none) :: r.2), ?_, by simp [hmap], ?_⟩
      · simp [processShortTermStrategy,
          processSymbolShort_skip lib now (envs s) s m hskip, hr]
      · intro p hp
        rcases List.mem_cons.mp hp with hp | hp
        · subst hp
          exact ⟨fun _ => rfl,
            fun hg => absurd hg (by simp [skipPairShort_not_good _ hskip])⟩
        · exact hall p hp
    · obtain ⟨m', res, hres⟩ := processSymbolShort_good lib now (envs s) s m hgood
      obtain ⟨r, hr, hmap, hall⟩ := ih m' (fun x hx => h x (List.mem_cons_of_mem _ hx))
      refine ⟨(r.1, (s, some res) :: r.2), ?_, by simp [hmap], ?_⟩
      · simp [processShortTermStrategy, hres, hr]
      · intro p hp
        rcases List.mem_cons.mp hp with hp | hp
        · subst hp
          refine ⟨fun hs' => ?_, fun _ => rfl⟩
          rw [skipPairShort_not_good _ hs'] at hgood
          exact absurd hgood (by simp)
        · exact hall p hp

lemma processLongTermStrategy_total (lib : TALib) (now : ℤ)
    (envs : String → SymbolEnv) :
    ∀ (symbols : List String) (m : OICacheManager),
      (∀ s ∈ symbols, skipPairLong (envs s) = true ∨ goodPairLong (envs s) = true) →
      ∃ r, processLongTermStrategy lib now envs symbols m = .ok r ∧
        r.2.map Prod.fst = symbols ∧
        ∀ p ∈ r.2, (skipPairLong (envs p.1) = true → p.2 = none) ∧
          (goodPairLong (envs p.1) = true → p.2.isSome = true) := by
  intro symbols
  induction symbols with
  | nil =>
    intro m _
    exact ⟨(m, []), rfl, rfl, by simp⟩
  | cons s rest ih =>
    intro m h
    rcases h s (List.mem_cons_self s rest) with hskip | hgood
    · obtain ⟨r, hr, hmap, hall⟩ := ih m (fun x hx => h x (List.mem_cons_of_mem _ hx))
      refine ⟨(r.1, (s, none) :: r.2), ?_, by simp [hmap], ?_⟩
      · simp [processLongTermStrategy,
          processSymbolLong_skip lib now (envs s) s m hskip, hr]
      · intro p hp
        rcases List.mem_cons.mp hp with hp | hp
        · subst hp
          exact ⟨fun _ => rfl,
            fun hg => absurd hg (by simp [skipPairLong_not_good _ hskip])⟩
        · exact hall p hp
    · obtain ⟨m', res, hres⟩ := processSymbolLong_good lib now (envs s) s m hgood
      obtain ⟨r, hr, hmap, hall⟩ := ih m' (fun x hx => h x (List.mem_cons_of_mem _ hx))
      refine ⟨(r.1, (s, some res) :: r.2), ?_, by simp [hmap], ?_⟩
      · simp [processLongTermStrategy, hres, hr]
      · intro p hp
        rcases List.mem_cons.mp hp with hp | hp
        · subst hp
          refine ⟨fun hs' => ?_, fun _ => rfl⟩
          rw [skipPairLong_not_good _ hs'] at hgood
          exact absurd hgood (by simp)
        · exact hall p hp

/-- C6: when every (account, symbol) pair of a tick either fails in a
skippable way (candle-fetch error or insufficient candle data) or fully
succeeds, both fan-out loops complete without aborting, produce one entry
per symbol in order, and emit a snapshot exactly for the non-skipped pairs —
one pair's candle failure never suppresses the other pairs' snapshots. -/
theorem c6_pair_failure_isolated (lib : TALib) (now : ℤ)
    (envs : String → SymbolEnv) (symbols : List String) (m : OICacheManager)
    (hshort : ∀ s ∈ symbols,
      skipPairShort (envs s) = true ∨ goodPairShort (envs s) = true)
    (hlong : ∀ s ∈ symbols,
      skipPairLong (envs s) = true ∨ goodPairLong (envs s) = true) :
    (∃ r, processShortTermStrategy lib now envs symbols m = .ok r ∧
      r.2.map Prod.fst = symbols ∧
      ∀ p ∈ r.2, (skipPairShort (envs p.1) = true → p.2 = none) ∧
        (goodPairShort (envs p.1) = true → p.2.isSome = true)) ∧
    (∃ r, processLongTermStrategy lib now envs symbols m = .ok r ∧
      r.2.map Prod.fst = symbols ∧
      ∀ p ∈ r.2, (skipPairLong (envs p.1) = true → p.2 = none) ∧
        (goodPairLong (envs p.1) = true → p.2.isSome = true)) :=
  ⟨processShortTermStrategy_total lib now envs symbols m hshort,
    processLongTermStrategy_total lib now envs symbols m hlong⟩

/-- An all-good tick environment. -/
def envGood : SymbolEnv := ⟨some ks55, some ks55, some ks55, some ks55, envOK⟩

/-- A tick environment whose 1h and 4h candle fetches fail. -/
def envBadFetch : SymbolEnv := ⟨none, some ks55, some ks55, none, envOK⟩

/-- The 5-symbol pool of the scenario; ETHUSDT's candle fetch fails. -/
def envsScenar (s : String) : SymbolEnv :=
  if s = "ETHUSDT" then envBadFetch else envGood

/-- C6 witness: in a 5-symbol pool where ETHUSDT's candle fetch fails, both
loops finish, ETHUSDT is skipped, the other four get snapshots. -/
theorem c6_pair_failure_isolated_witness :
    (∃ r, processShortTermStrategy trivLib 0 envsScenar
        ["BTCUSDT", "ETHUSDT", "SOLUSDT", "BNBUSDT", "XRPUSDT"]
        (NewOICacheManager 5) = .ok r ∧
      r.2.map Prod.fst = ["BTCUSDT", "ETHUSDT", "SOLUSDT", "BNBUSDT", "XRPUSDT"] ∧
      ∀ p ∈ r.2, (skipPairShort (envsScenar p.1) = true → p.2 = none) ∧
        (goodPairShort (envsScenar p.1) = true → p.2.isSome = true)) ∧
    (∃ r, processLongTermStrategy trivLib 0 envsScenar
        ["BTCUSDT", "ETHUSDT", "SOLUSDT", "BNBUSDT", "XRPUSDT"]
        (NewOICacheManager 5) = .ok r ∧
      r.2.map Prod.fst = ["BTCUSDT", "ETHUSDT", "SOLUSDT", "BNBUSDT", "XRPUSDT"] ∧
      ∀ p ∈ r.2, (skipPairLong (envsScenar p.1) = true → p.2 = none) ∧
        (goodPairLong (envsScenar p.1) = true → p.2.isSome = true)) :=
  c6_pair_failure_isolated trivLib 0 envsScenar
    ["BTCUSDT", "ETHUSDT", "SOLUSDT", "BNBUSDT", "XRPUSDT"]
    (NewOICacheManager 5) (by decide) (by decide)

/-- C7: within one tick, the change rates emitted for a symbol are computed
from the cache history as it was before that tick (there exists one fetched
current value `cur` from which all offsets are derived against the prior
history), and the post-tick cache history is the prior history with the
fresh value prepended (truncated) — the fresh value is read by no offset of
its own tick. -/
theorem c7_update_after_read (lib : TALib) (now : ℤ) (env : SymbolEnv)
    (s : String) (m m' : OICacheManager) (res : ShortTermIndicators)
    (md : MarketData)
    (hstep : processSymbolShort lib now env s m = .ok (m', some res))
    (hmd : res.marketData = some md) :
    ∃ cur,
      md.oiChange5m = (if 2 ≤ (historyOf m s).length then
        some (calculateOIChangeRate cur ((historyOf m s).getD 0 0)) else none) ∧
      md.oiChange15m = (if 4 ≤ (historyOf m s).length then
        some (calculateOIChangeRate cur ((historyOf m s).getD 2 0)) else none) ∧
      md.oiChange25m = (if 5 ≤ (historyOf m s).length then
        some (calculateOIChangeRate cur ((historyOf m s).getD 4 0)) else none) ∧
      historyOf m' s = (md.oiCurrent :: historyOf m s).take m.maxSize := by
  unfold processSymbolShort at hstep
  cases h1 : env.klines1h with
  | none => simp [h1] at hstep
  | some k1 =>
  cases h2 : env.klines15m with
  | none => simp [h1, h2] at hstep
  | some k2 =>
  cases h3 : env.klines5m with
  | none => simp [h1, h2, h3] at hstep
  | some k3 =>
  simp only [h1, h2, h3] at hstep
  cases hw : CalculateShortTermIndicatorsWithMarket lib now s k1 k2 k3 env.market
      (some ((m.Get s).getD ⟨s, [], []⟩)) with
  | error p => simp [hw] at hstep
  | ok o =>
    cases o with
    | none => simp [hw] at hstep
    | some result =>
      simp only [hw, Except.ok.injEq, Prod.mk.injEq, Option.some.injEq] at hstep
      obtain ⟨hm', hres⟩ := hstep
      unfold CalculateShortTermIndicatorsWithMarket at hw
      cases hbase : CalculateShortTermIndicators lib now s k1 k2 k3 with
      | none => simp [hbase] at hw
      | some ind =>
        simp only [hbase] at hw
        cases hcm : CalculateMarketData env.market s
            (((ind.timeframes.m5.map TimeframeData.closePrice).getD 0))
            (some ((m.Get s).getD ⟨s, [], []⟩)) with
        | none => simp [hcm] at hw
        | some md0 =>
          simp only [hcm, Except.ok.injEq, Option.some.injEq] at hw
          have hresmd : result.marketData = some md0 := by rw [← hw]
          have hmd0 : md = md0 := by
            rw [← hres] at hmd
            rw [hresmd] at hmd
            exact (Option.some_inj.mp hmd).symm
          subst hmd0
          rw [hresmd] at hm'
          obtain ⟨cur, base, h5, h15, h25, h45, h75, hmdeq⟩ :=
            CalculateMarketData_eq_some hcm
          simp only [Option.map_some', Option.getD_some] at hmdeq
          have hh : ((m.Get s).getD ⟨s, [], []⟩).history = historyOf m s :=
            (historyOf_eq_getD m s).symm
          rw [hh] at hmdeq
          refine ⟨cur, ?_, ?_, ?_, ?_⟩
          · rw [hmdeq, applyOIChanges_oiChange5m _ _ _ h5]
          · rw [hmdeq, applyOIChanges_oiChange15m _ _ _ h15]
          · rw [hmdeq, applyOIChanges_oiChange25m _ _ _ h25]
          · rw [← hm']
            exact historyOf_Update_self m s md.oiCurrent now

/-- Manager pre-state of the C7 witness: two prior samples for BTCUSDT. -/
def wMgr : OICacheManager :=
  applyCacheUpdates (NewOICacheManager 5) [("BTCUSDT", 10, 1), ("BTCUSDT", 11, 2)]

/-- The C7 witness tick step. -/
def wStep : Except GoPanic (OICacheManager × Option ShortTermIndicators) :=
  processSymbolShort trivLib 100 envGood "BTCUSDT" wMgr

/-- Post-state manager of the C7 witness step. -/
def wSt : OICacheManager :=
  match wStep with
  | .ok (m, _) => m
  | .error _ => wMgr

/-- Snapshot emitted by the C7 witness step. -/
def wRes : ShortTermIndicators :=
  match wStep with
  | .ok (_, some r) => r
  | _ => ⟨"", 0, none, ⟨none, none, none⟩⟩

/-- Market block of the C7 witness snapshot. -/
def wMd : MarketData := wRes.marketData.getD mdZero

/-- C7 witness: the concrete step over a 2-deep prior history. -/
theorem c7_update_after_read_witness :
    ∃ cur,
      wMd.oiChange5m = (if 2 ≤ (historyOf wMgr "BTCUSDT").length then
        some (calculateOIChangeRate cur ((historyOf wMgr "BTCUSDT").getD 0 0)) else none) ∧
      wMd.oiChange15m = (if 4 ≤ (historyOf wMgr "BTCUSDT").length then
        some (calculateOIChangeRate cur ((historyOf wMgr "BTCUSDT").getD 2 0)) else none) ∧
      wMd.oiChange25m = (if 5 ≤ (historyOf wMgr "BTCUSDT").length then
        some (calculateOIChangeRate cur ((historyOf wMgr "BTCUSDT").getD 4 0)) else none) ∧
      historyOf wSt "BTCUSDT" =
        (wMd.oiCurrent :: historyOf wMgr "BTCUSDT").take wMgr.maxSize :=
  c7_update_after_read trivLib 100 envGood "BTCUSDT" wMgr wSt wRes wMd rfl rfl

/-- C9: `IsExpired` is true exactly for an unknown key, an entry with no
samples, or a newest sample strictly more than `maxAge` seconds older than
the current time. -/
theorem c9_isExpired_iff (m : OICacheManager) (now : ℤ) (symbol : String)
    (maxAge : ℤ) :
    m.IsExpired now symbol maxAge = true ↔
      (m.Get symbol = none ∨
        ∃ c, m.Get symbol = some c ∧
          (c.timestamps = [] ∨ maxAge < now - c.timestamps.headD 0)) := by
  unfold OICacheManager.IsExpired
  cases h : m.Get symbol with
  | none => simp [h]
  | some c =>
    cases ht : c.timestamps with
    | nil => simp [h, ht]
    | cons t ts => simp [h, ht]

/-- C10: if the current-funding fetch succeeds and the history fetch fails,
`CalculateFundingMetrics` still returns a value, whose `Avg3` field is the
literal 0 (indistinguishable from a computed zero average). -/
theorem c10_funding_history_sentinel (env : MarketEnv) (r : ℚ)
    (hr : env.lastFundingRate = some r) (hh : env.fundingRateHistory = none) :
    CalculateFundingMetrics env = some ⟨formatPercent (r * 100), 0⟩ := by
  unfold CalculateFundingMetrics
  rw [hr, hh]

/-- C10 witness: concrete environment with rate 3 and a failed history fetch. -/
theorem c10_funding_history_sentinel_witness :
    CalculateFundingMetrics ⟨some 2, some 3, none⟩ =
      some ⟨formatPercent (3 * 100), 0⟩ :=
  c10_funding_history_sentinel ⟨some 2, some 3, none⟩ 3 rfl rfl

end AITrader
